/-
Verification of the hcaas API-gateway request pipeline: a shallow embedding
of the gateway's reverse-proxy retry loop, header hygiene, routing/error
classification, rate-limit middleware, auth middleware, and CORS pipeline,
together with theorems settling the specification's claims about them.

Embedding conventions: Go strings are Lean `String` (char-list based);
byte buffers are `List Nat`; HTTP headers are association lists
`List (String × List String)` mirroring `http.Header`; the one-shot
request-body stream is a `BodyReader` (bytes plus read position);
the retry loop's time/cancellation behaviour is made explicit as a trace
of completed backoff sleeps and an oracle saying on which backoffs the
parent context is already cancelled.
-/
import Mathlib

namespace HCaaS

/-! ## Go string primitives (strings.ToLower, Contains, SplitN, Split, TrimSpace, Cut) -/

/-- Model of Go `strings.ToLower` (ASCII case folding, which is all the
gateway compares: header names and the literal "bearer"). -/
def goToLower (s : String) : String := ⟨s.data.map Char.toLower⟩

/-- Occurrence of `needle` as a contiguous substring of `hay`
(Go `strings.Contains` on the underlying characters). -/
def containsSub (needle : List Char) : List Char → Bool
  | [] => needle.isEmpty
  | c :: t => needle.isPrefixOf (c :: t) || containsSub needle t

/-- Model of Go `strings.Contains`. -/
def strContains (hay needle : String) : Bool := containsSub needle.data hay.data

/-- Split a character list at its first space, as Go
`strings.SplitN(s, " ", 2)` does: `none` when no space occurs. -/
def splitFirstSpace : List Char → Option (List Char × List Char)
  | [] => none
  | c :: cs =>
    if c = ' ' then some ([], cs)
    else
      match splitFirstSpace cs with
      | none => none
      | some (a, b) => some (c :: a, b)

/-- Model of Go `strings.Split(s, ",")`: always returns at least one field. -/
def splitCommaAux (acc : List Char) : List Char → List (List Char)
  | [] => [acc.reverse]
  | c :: cs => if c = ',' then acc.reverse :: splitCommaAux [] cs else splitCommaAux (c :: acc) cs

def splitComma (s : String) : List String :=
  (splitCommaAux [] s.data).map (fun l => ⟨l⟩)

/-- Whitespace characters trimmed by Go `strings.TrimSpace` (ASCII part). -/
def isGoSpace (c : Char) : Bool :=
  c = ' ' || c = '\t' || c = '\n' || c = '\r' || c = '\x0b' || c = '\x0c'

/-- Model of Go `strings.TrimSpace`. -/
def trimSpace (s : String) : String :=
  ⟨((s.data.dropWhile isGoSpace).reverse.dropWhile isGoSpace).reverse⟩

/-- Model of Go `strings.Cut(s, ":")`: the part before the first colon,
or `none` when no colon occurs. -/
def cutColon : List Char → Option (List Char)
  | [] => none
  | c :: cs =>
    if c = ':' then some []
    else
      match cutColon cs with
      | none => none
      | some a => some (c :: a)

/-- Model of Go `strings.HasPrefix(s, pre)`. -/
def goHasPrefix (s pre : String) : Bool := pre.data.isPrefixOf s.data

/-- Model of Go `strings.TrimPrefix(path, "/")`. -/
def trimLeadingSlash (s : String) : String :=
  if goHasPrefix s "/" then ⟨s.data.drop 1⟩ else s

/-! ## HTTP data model -/

/-- A one-shot readable body stream: the underlying bytes and the current
read position.  `io.ReadAll` returns the unread suffix and exhausts it. -/
structure BodyReader where
  bytes : List Nat
  pos : Nat
deriving DecidableEq, Repr

/-- Model of `io.ReadAll` on a body stream. -/
def readAll (r : BodyReader) : List Nat × BodyReader :=
  (r.bytes.drop r.pos, ⟨r.bytes, r.bytes.length⟩)

/-- A fresh reader positioned at the start, as produced by
`bytes.NewReader` / `io.NopCloser(bytes.NewReader(...))`. -/
def freshReader (bs : List Nat) : BodyReader := ⟨bs, 0⟩

/-- HTTP headers: association list of name to values (`http.Header`). -/
abbrev Header := List (String × List String)

/-- Model of `http.Header.Get`: first value stored under the name, else "". -/
def headerGet (hs : Header) (name : String) : String :=
  match hs.find? (fun p => p.1 = name) with
  | some (_, v :: _) => v
  | _ => ""

/-- Model of `http.Header.Set`: replace all values stored under the name. -/
def headerSet (hs : Header) (name value : String) : Header :=
  hs.filter (fun p => p.1 ≠ name) ++ [(name, [value])]

/-- An inbound `*http.Request` as the gateway sees it. -/
structure HttpRequest where
  method : String
  path : String
  headers : Header
  body : Option BodyReader
  remoteAddr : String
  host : String
  tls : Bool
deriving DecidableEq, Repr

/-- An upstream `*http.Response`. -/
structure UpstreamResponse where
  statusCode : Int
  headers : Header
  body : List Nat
deriving DecidableEq, Repr

/-- A response written by a middleware or the error handler:
status, headers in the order the handler sets them, and body text. -/
structure MWResponse where
  status : Nat
  headers : List (String × String)
  body : String
deriving DecidableEq, Repr

/-! ## Reverse proxy engine (services/gateway/internal/proxy/proxy.go) -/

/-- `shouldRetry`: retry on server errors except 501 Not Implemented. -/
def shouldRetry (statusCode : Int) : Bool :=
  500 ≤ statusCode && statusCode ≠ 501

/-- The hop-by-hop header list of `isHopByHopHeader`. -/
def hopByHopHeaders : List String :=
  ["Connection", "Keep-Alive", "Proxy-Authenticate", "Proxy-Authorization",
   "Te", "Trailers", "Transfer-Encoding", "Upgrade"]

/-- `isHopByHopHeader`: case-insensitive membership in `hopByHopHeaders`. -/
def isHopByHopHeader (name : String) : Bool :=
  hopByHopHeaders.any (fun h => goToLower h = goToLower name)

/-- The header-copy loops of `createProxyRequest` and `copyResponse`:
copy every header that is not hop-by-hop, with all its values. -/
def copyHeaders (hs : Header) : Header :=
  hs.filter (fun p => !(isHopByHopHeader p.1))

/-- Proxy `getClientIP`: first entry of `X-Forwarded-For`, else `X-Real-IP`,
else the host part of `RemoteAddr`. -/
def getClientIP (r : HttpRequest) : String :=
  let xff := headerGet r.headers "X-Forwarded-For"
  if xff ≠ "" then
    trimSpace ((splitComma xff).headD "")
  else
    let xri := headerGet r.headers "X-Real-IP"
    if xri ≠ "" then xri
    else
      match cutColon r.remoteAddr.data with
      | some host => ⟨host⟩
      | none => r.remoteAddr

/-- Proxy `getScheme`. -/
def getScheme (r : HttpRequest) : String :=
  if r.tls then "https"
  else
    let proto := headerGet r.headers "X-Forwarded-Proto"
    if proto ≠ "" then proto else "http"

/-- The headers `createProxyRequest` puts on the upstream request:
non-hop-by-hop inbound headers, then the four forwarding headers set last. -/
def proxyHeaders (orig : HttpRequest) : Header :=
  headerSet
    (headerSet
      (headerSet
        (headerSet (copyHeaders orig.headers) "X-Forwarded-For" (getClientIP orig))
        "X-Forwarded-Proto" (getScheme orig))
      "X-Forwarded-Host" orig.host)
    "X-Gateway" "hcaas-gateway"

/-- `createProxyRequest`: returns the upstream request and the original
request as mutated (its body replaced by a fresh readable copy). -/
def createProxyRequest (orig : HttpRequest) (targetURL : String) :
    HttpRequest × HttpRequest :=
  match orig.body with
  | none =>
    ({ orig with path := targetURL, headers := proxyHeaders orig, body := none }, orig)
  | some rb =>
    let bodyBytes := (readAll rb).1
    ({ orig with
        path := targetURL
        headers := proxyHeaders orig
        body := some (freshReader bodyBytes) },
     { orig with body := some (freshReader bodyBytes) })

/-- What the client connection has received after `copyResponse`. -/
structure ClientResponse where
  headers : Header
  statusCode : Int
  body : List Nat
deriving DecidableEq, Repr

/-- `copyResponse`: non-hop-by-hop headers, then status, then body verbatim. -/
def copyResponse (resp : UpstreamResponse) : ClientResponse :=
  ⟨copyHeaders resp.headers, resp.statusCode, resp.body⟩

/-- Outcome of one `p.client.Do(req)` attempt. -/
inductive AttemptOutcome where
  | resp (r : UpstreamResponse)
  | netErr (msg : String)
deriving DecidableEq, Repr

/-- The failure recorded in `lastErr` by the retry loop. -/
inductive ProxyError where
  | retryableStatus (code : Int)
  | network (msg : String)
deriving DecidableEq, Repr

/-- Result of `proxyWithRetries`. -/
inductive ProxyResult where
  | success (r : UpstreamResponse)
  | ctxCancelled
  | exhausted (last : ProxyError)
deriving DecidableEq, Repr

/-- Observable trace of the retry loop: how many attempts were started and
which backoff sleeps completed (durations in milliseconds, in order). -/
structure RetryTrace where
  attempts : Nat
  sleeps : List Nat
deriving DecidableEq, Repr

/-- The loop body of `proxyWithRetries`.  `attempt` is the current 0-based
attempt index, `remaining` the number of attempts still allowed after this
one (`serviceConfig.Retries - attempt`), `cancelled i` whether the parent
context is observed cancelled during the backoff select after attempt `i`. -/
def proxyLoop (upstream : Nat → AttemptOutcome) (cancelled : Nat → Bool) :
    Nat → Nat → RetryTrace → ProxyResult × RetryTrace
  | attempt, 0, trace =>
    match upstream attempt with
    | .resp resp =>
      if shouldRetry resp.statusCode then
        (.exhausted (.retryableStatus resp.statusCode), ⟨trace.attempts + 1, trace.sleeps⟩)
      else
        (.success resp, ⟨trace.attempts + 1, trace.sleeps⟩)
    | .netErr m => (.exhausted (.network m), ⟨trace.attempts + 1, trace.sleeps⟩)
  | attempt, r + 1, trace =>
    match upstream attempt with
    | .resp resp =>
      if shouldRetry resp.statusCode then
        if cancelled attempt then (.ctxCancelled, ⟨trace.attempts + 1, trace.sleeps⟩)
        else
          proxyLoop upstream cancelled (attempt + 1) r
            ⟨trace.attempts + 1, trace.sleeps ++ [(attempt + 1) * 100]⟩
      else
        (.success resp, ⟨trace.attempts + 1, trace.sleeps⟩)
    | .netErr _ =>
      if cancelled attempt then (.ctxCancelled, ⟨trace.attempts + 1, trace.sleeps⟩)
      else
        proxyLoop upstream cancelled (attempt + 1) r
          ⟨trace.attempts + 1, trace.sleeps ++ [(attempt + 1) * 100]⟩

/-- `proxyWithRetries`: up to `retries + 1` attempts from attempt 0. -/
def proxyWithRetries (retries : Nat) (upstream : Nat → AttemptOutcome)
    (cancelled : Nat → Bool) : ProxyResult × RetryTrace :=
  proxyLoop upstream cancelled 0 retries ⟨0, []⟩

/-- An attempt outcome the loop treats as retryable: a network-level error,
or a response whose status `shouldRetry` accepts. -/
def retryableOutcome : AttemptOutcome → Prop
  | .resp r => shouldRetry r.statusCode = true
  | .netErr _ => True

/-! ## Routing and service configuration -/

/-- Per-service endpoint configuration (`config.ServiceEndpoint`). -/
structure ServiceEndpoint where
  baseURL : String
  timeoutMs : Nat
  retries : Nat
deriving DecidableEq, Repr

/-- `config.ServicesConfig`. -/
structure ServicesConfig where
  authService : ServiceEndpoint
  urlService : ServiceEndpoint
  notificationService : ServiceEndpoint
deriving DecidableEq, Repr

/-- `determineTarget`: path-prefix routing to (serviceName, targetURL). -/
def determineTarget (cfg : ServicesConfig) (path : String) :
    Except String (String × String) :=
  if goHasPrefix path "/auth/" || goHasPrefix path "/me" then
    .ok ("auth", cfg.authService.baseURL ++ "/" ++ trimLeadingSlash path)
  else if goHasPrefix path "/urls" then
    .ok ("url", cfg.urlService.baseURL ++ path)
  else if goHasPrefix path "/notifications" then
    .ok ("notification", cfg.notificationService.baseURL ++ path)
  else
    .error ("no route found for path: " ++ path)

/-- `getServiceConfig`. -/
def getServiceConfig (cfg : ServicesConfig) (serviceName : String) :
    Except String ServiceEndpoint :=
  if serviceName = "auth" then .ok cfg.authService
  else if serviceName = "url" then .ok cfg.urlService
  else if serviceName = "notification" then .ok cfg.notificationService
  else .error ("unknown service: " ++ serviceName)

/-- The error text carried by a `ProxyError` (`fmt.Errorf` formatting). -/
def proxyErrorMessage : ProxyError → String
  | .retryableStatus code => "upstream returned retryable status: " ++ toString code
  | .network m => m

/-- `ProxyRequest` as far as error production is concerned: resolve the
target, then run the retry loop; errors are wrapped exactly as the
`fmt.Errorf` calls wrap them.  The trace records upstream attempts made. -/
def proxyRequest (cfg : ServicesConfig) (r : HttpRequest)
    (upstream : Nat → AttemptOutcome) (cancelled : Nat → Bool) :
    Except String UpstreamResponse × RetryTrace :=
  match determineTarget cfg r.path with
  | .error e => (.error ("failed to determine target: " ++ e), ⟨0, []⟩)
  | .ok (serviceName, _) =>
    match getServiceConfig cfg serviceName with
    | .error e => (.error ("failed to get service config: " ++ e), ⟨0, []⟩)
    | .ok sc =>
      match proxyWithRetries sc.retries upstream cancelled with
      | (.success resp, tr) => (.ok resp, tr)
      | (.ctxCancelled, tr) =>
        (.error ("failed to proxy request: " ++ "context canceled"), tr)
      | (.exhausted le, tr) =>
        (.error ("failed to proxy request: " ++ "all retry attempts failed: " ++
          proxyErrorMessage le), tr)

/-! ## Gateway handler error classification (handler/gateway.go) -/

/-- The substring-based error classification of `handleProxyError`:
(status, message, code). -/
def classifyProxyError (errStr : String) : Nat × String × String :=
  if strContains errStr "no route found" then
    (404, "Endpoint not found", "ROUTE_NOT_FOUND")
  else if strContains errStr "timeout" then
    (504, "Request timeout", "TIMEOUT_ERROR")
  else if strContains errStr "connection" then
    (502, "Upstream service unavailable", "SERVICE_UNAVAILABLE")
  else
    (500, "Internal server error", "PROXY_ERROR")

/-- The JSON error body written by `handleProxyError`. -/
def jsonProxyError (message code : String) : String :=
  "\x7b\"error\": \"" ++ message ++ "\", \"code\": \"" ++ code ++ "\"\x7d"

/-- `handleProxyError`: CORS + content-type headers, classified status,
JSON error body. -/
def handleProxyError (errStr : String) : MWResponse :=
  let c := classifyProxyError errStr
  { status := c.1
    headers :=
      [("Access-Control-Allow-Origin", "*"),
       ("Access-Control-Allow-Methods", "GET, POST, PUT, DELETE, OPTIONS"),
       ("Access-Control-Allow-Headers", "Authorization, Content-Type"),
       ("Content-Type", "application/json")]
    body := jsonProxyError c.2.1 c.2.2 }

/-! ## Rate-limit middleware (gateway middleware, ratelimit file) -/

/-- Rate-limiter `getClientIP`: the whole `X-Forwarded-For` value verbatim
(no first-entry extraction), else `X-Real-IP`, else `RemoteAddr`. -/
def rlGetClientIP (r : HttpRequest) : String :=
  let xff := headerGet r.headers "X-Forwarded-For"
  if xff ≠ "" then xff
  else
    let xri := headerGet r.headers "X-Real-IP"
    if xri ≠ "" then xri
    else r.remoteAddr

/-- Modelled from the spec: the `golang.org/x/time/rate` token bucket is an
external library, so its `Allow` is modelled after §4.1 and the glossary —
within a window where the bucket has not refilled, `Allow` consumes one
token when at least one whole token is available and otherwise rejects
without consuming.  The state is the number of whole tokens left. -/
def bucketAllow (tokens : Nat) : Bool × Nat :=
  if 1 ≤ tokens then (true, tokens - 1) else (false, tokens)

/-- The JSON body written by `handleRateLimitExceeded`. -/
def jsonRateLimited : String :=
  "\x7b\"error\": \"Rate limit exceeded\", \"code\": \"RATE_LIMIT_EXCEEDED\", \"retry_after\": 60\x7d"

/-- `handleRateLimitExceeded`: 429 with rate-limit headers (remaining =
whole tokens left on the client's bucket, a natural number rendered in
decimal, hence non-negative), CORS headers, JSON body. -/
def handleRateLimitExceeded (requestsPerSecond remaining : Nat) : MWResponse :=
  { status := 429
    headers :=
      [("X-RateLimit-Limit", toString requestsPerSecond),
       ("X-RateLimit-Remaining", toString remaining),
       ("X-RateLimit-Reset", "60"),
       ("Retry-After", "60"),
       ("Access-Control-Allow-Origin", "*"),
       ("Access-Control-Allow-Methods", "GET, POST, PUT, DELETE, OPTIONS"),
       ("Access-Control-Allow-Headers", "Authorization, Content-Type"),
       ("Content-Type", "application/json")]
    body := jsonRateLimited }

/-- One pass of the rate-limit middleware body for a single client bucket:
consult the bucket; on rejection answer with `handleRateLimitExceeded`
(and do not invoke the downstream handler), else pass through.  Returns
((response, downstream invoked), new bucket state). -/
def rateLimitStep (requestsPerSecond tokens : Nat) (next : MWResponse) :
    (MWResponse × Bool) × Nat :=
  let (ok, tokens') := bucketAllow tokens
  if ok then ((next, true), tokens')
  else ((handleRateLimitExceeded requestsPerSecond tokens', false), tokens')

/-- A burst of `n` requests from one client whose bucket does not refill:
the per-request (response, downstream-invoked) results. -/
def runRateLimited (requestsPerSecond : Nat) (next : MWResponse) :
    Nat → Nat → List (MWResponse × Bool)
  | 0, _ => []
  | n + 1, tokens =>
    let r := rateLimitStep requestsPerSecond tokens next
    r.1 :: runRateLimited requestsPerSecond next n r.2

/-! ## Auth middleware (auth/jwt.go and the middleware file) -/

/-- `ExtractTokenFromHeader`: empty check, SplitN on the first space into
exactly two parts, case-insensitive scheme check, non-empty token check. -/
def extractTokenFromHeader (authHeader : String) : Except String String :=
  if authHeader = "" then .error "missing authorization header"
  else
    match splitFirstSpace authHeader.data with
    | none => .error "invalid authorization header format"
    | some (p0, p1) =>
      if goToLower ⟨p0⟩ ≠ "bearer" then .error "unsupported authorization scheme"
      else if (⟨p1⟩ : String) = "" then .error "missing token in authorization header"
      else .ok ⟨p1⟩

/-- `auth.ValidationResult`. -/
inductive ValidationResult where
  | success
  | expired
  | invalid
  | missing
deriving DecidableEq, Repr

/-- `GetValidationResult`: substring classification of a validation error. -/
def getValidationResult (errStr : String) : ValidationResult :=
  let lower := goToLower errStr
  if strContains lower "expired" then .expired
  else if strContains lower "missing" then .missing
  else .invalid

/-- The public-path allowlist of `NewAuthMiddleware`. -/
def publicPaths : List String :=
  ["/auth/register", "/auth/login", "/auth/validate", "/healthz", "/health",
   "/readyz", "/metrics"]

/-- `isPublicPath`: prefix match against the allowlist. -/
def isPublicPath (path : String) : Bool :=
  publicPaths.any (fun p => goHasPrefix path p)

/-- The message chosen by `handleAuthError`'s switch. -/
def authErrorMessage : ValidationResult → String
  | .expired => "Token has expired"
  | .invalid => "Invalid token"
  | .missing => "Authorization header required"
  | .success => "Authentication required"

/-- `handleAuthError`: 401, JSON + CORS headers, JSON error body. -/
def handleAuthError (result : ValidationResult) : MWResponse :=
  { status := 401
    headers :=
      [("Content-Type", "application/json"),
       ("Access-Control-Allow-Origin", "*"),
       ("Access-Control-Allow-Methods", "GET, POST, PUT, DELETE, OPTIONS"),
       ("Access-Control-Allow-Headers", "Authorization, Content-Type")]
    body := "\x7b\"error\": \"" ++ authErrorMessage result ++
      "\", \"code\": \"AUTHENTICATION_FAILED\"\x7d" }

/-- The auth middleware body: public paths bypass; extraction failure is
handled as `missing`; validation failure is classified; success passes
through.  The validator collaborator is abstract (its failure carries the
error text the classifier inspects).  Returns (response, downstream
invoked). -/
def authMiddleware (validate : String → Except String Unit)
    (path authHeader : String) (next : MWResponse) : MWResponse × Bool :=
  if isPublicPath path then (next, true)
  else
    match extractTokenFromHeader authHeader with
    | .error _ => (handleAuthError .missing, false)
    | .ok token =>
      match validate token with
      | .error e => (handleAuthError (getValidationResult e), false)
      | .ok _ => (next, true)

/-! ## CORS middleware and pipeline composition (tracing.go CORS part, main) -/

/-- The five headers `CORSMiddleware` sets on every response. -/
def corsHeadersList : List (String × String) :=
  [("Access-Control-Allow-Origin", "*"),
   ("Access-Control-Allow-Methods", "GET, POST, PUT, DELETE, OPTIONS, PATCH"),
   ("Access-Control-Allow-Headers",
     "Accept, Content-Type, Content-Length, Accept-Encoding, Authorization, X-CSRF-Token, X-Requested-With"),
   ("Access-Control-Allow-Credentials", "true"),
   ("Access-Control-Max-Age", "3600")]

/-- Shared mutable pipeline state: the per-client limiter registry
(client key to remaining whole tokens) and a log of which stages ran. -/
structure PipelineState where
  limiters : List (String × Nat)
  stagesRun : List String
deriving DecidableEq, Repr

/-- A pipeline stage / handler. -/
def GHandler : Type := HttpRequest → PipelineState → MWResponse × PipelineState

/-- `CORSMiddleware.Middleware`: set the CORS headers, answer preflight
`OPTIONS` with 200 immediately (next stage never runs), else delegate. -/
def corsMiddleware (next : GHandler) : GHandler := fun r st =>
  if r.method = "OPTIONS" then
    ({ status := 200, headers := corsHeadersList, body := "" }, st)
  else
    let (resp, st') := next r st
    ({ resp with headers := corsHeadersList ++ resp.headers }, st')

/-- Association-list update for the limiter registry. -/
def limitersSet (m : List (String × Nat)) (key : String) (v : Nat) :
    List (String × Nat) :=
  m.filter (fun p => p.1 ≠ key) ++ [(key, v)]

/-- `RateLimitMiddleware.Middleware` as a pipeline stage: key the bucket by
`rlGetClientIP`, lazily create it with `burst` tokens, consult it, reject
with 429 or delegate. -/
def rateLimitStage (requestsPerSecond burst : Nat) (next : GHandler) : GHandler :=
  fun r st =>
    let key := rlGetClientIP r
    let tokens := ((st.limiters.lookup key).getD burst)
    let res := bucketAllow tokens
    let st' : PipelineState :=
      { limiters := limitersSet st.limiters key res.2
        stagesRun := st.stagesRun ++ ["rate-limit"] }
    if res.1 then next r st'
    else (handleRateLimitExceeded requestsPerSecond res.2, st')

/-- `AuthMiddleware.Middleware` as a pipeline stage. -/
def authStage (validate : String → Except String Unit) (next : GHandler) : GHandler :=
  fun r st =>
    let st' : PipelineState := { st with stagesRun := st.stagesRun ++ ["auth"] }
    if isPublicPath r.path then next r st'
    else
      match extractTokenFromHeader (headerGet r.headers "Authorization") with
      | .error _ => (handleAuthError .missing, st')
      | .ok token =>
        match validate token with
        | .error e => (handleAuthError (getValidationResult e), st')
        | .ok _ => next r st'

/-- The custom middleware chain of `main`, in installation order: CORS is
installed before rate limiting, which is installed before auth, which
wraps the terminal proxy handler. -/
def gatewayChain (validate : String → Except String Unit)
    (requestsPerSecond burst : Nat) (terminal : GHandler) : GHandler :=
  corsMiddleware (rateLimitStage requestsPerSecond burst (authStage validate terminal))

/-! ## Retry-loop lemmas -/

theorem backoff_cons (attempt j : Nat) :
    (attempt + 1) * 100 :: (List.range j).map (fun i => (attempt + 1 + i + 1) * 100)
      = (List.range (j + 1)).map (fun i => (attempt + i + 1) * 100) := by
  rw [List.range_succ_eq_map, List.map_cons, List.map_map]
  refine congrArg₂ _ (by simp) ?_
  refine List.map_congr_left (fun i _ => ?_)
  simp only [Function.comp_apply]
  omega

theorem proxyLoop_success (upstream : Nat → AttemptOutcome) (cancelled : Nat → Bool)
    (okResp : UpstreamResponse) :
    ∀ (k attempt remaining : Nat) (trace : RetryTrace), k ≤ remaining →
    (∀ i, i < k → retryableOutcome (upstream (attempt + i))) →
    (∀ i, i < k → cancelled (attempt + i) = false) →
    upstream (attempt + k) = .resp okResp →
    shouldRetry okResp.statusCode = false →
    proxyLoop upstream cancelled attempt remaining trace =
      (.success okResp,
       ⟨trace.attempts + k + 1,
        trace.sleeps ++ (List.range k).map (fun i => (attempt + i + 1) * 100)⟩) := by
  intro k
  induction k with
  | zero =>
    intro attempt remaining trace _ _ _ hup hok
    rw [Nat.add_zero] at hup
    cases remaining with
    | zero => simp [proxyLoop, hup, hok]
    | succ r => simp [proxyLoop, hup, hok]
  | succ j ih =>
    intro attempt remaining trace hle hfail hcan hup hok
    cases remaining with
    | zero => omega
    | succ r =>
      have hf0 : retryableOutcome (upstream attempt) := by
        have := hfail 0 (Nat.succ_pos j)
        rwa [Nat.add_zero] at this
      have hc0 : cancelled attempt = false := by
        have := hcan 0 (Nat.succ_pos j)
        rwa [Nat.add_zero] at this
      have hrec := ih (attempt + 1) r ⟨trace.attempts + 1, trace.sleeps ++ [(attempt + 1) * 100]⟩
        (by omega)
        (fun i hi => by
          have := hfail (i + 1) (by omega)
          rwa [show attempt + (i + 1) = attempt + 1 + i by omega] at this)
        (fun i hi => by
          have := hcan (i + 1) (by omega)
          rwa [show attempt + (i + 1) = attempt + 1 + i by omega] at this)
        (by rwa [show attempt + 1 + j = attempt + (j + 1) by omega])
        hok
      cases hu : upstream attempt with
      | resp rr =>
        rw [hu] at hf0
        simp only [retryableOutcome] at hf0
        simp only [proxyLoop, hu, hf0, hc0, if_true, if_false, Bool.false_eq_true,
          reduceIte, hrec]
        refine congrArg _ ?_
        refine congrArg₂ _ (by omega) ?_
        rw [List.append_assoc, List.singleton_append, backoff_cons]
      | netErr m =>
        simp only [proxyLoop, hu, hc0, Bool.false_eq_true, reduceIte, hrec]
        refine congrArg _ ?_
        refine congrArg₂ _ (by omega) ?_
        rw [List.append_assoc, List.singleton_append, backoff_cons]

theorem proxyLoop_cancel (upstream : Nat → AttemptOutcome) (cancelled : Nat → Bool) :
    ∀ (a attempt remaining : Nat) (trace : RetryTrace), a < remaining →
    (∀ i, i ≤ a → retryableOutcome (upstream (attempt + i))) →
    (∀ i, i < a → cancelled (attempt + i) = false) →
    cancelled (attempt + a) = true →
    proxyLoop upstream cancelled attempt remaining trace =
      (.ctxCancelled,
       ⟨trace.attempts + a + 1,
        trace.sleeps ++ (List.range a).map (fun i => (attempt + i + 1) * 100)⟩) := by
  intro a
  induction a with
  | zero =>
    intro attempt remaining trace hlt hfail _ hcan
    rw [Nat.add_zero] at hcan
    cases remaining with
    | zero => omega
    | succ r =>
      have hf0 : retryableOutcome (upstream attempt) := by
        have := hfail 0 (Nat.le_refl 0)
        rwa [Nat.add_zero] at this
      cases hu : upstream attempt with
      | resp rr =>
        rw [hu] at hf0
        simp only [retryableOutcome] at hf0
        simp [proxyLoop, hu, hf0, hcan]
      | netErr m =>
        simp [proxyLoop, hu, hcan]
  | succ j ih =>
    intro attempt remaining trace hlt hfail hcan hc
    cases remaining with
    | zero => omega
    | succ r =>
      have hf0 : retryableOutcome (upstream attempt) := by
        have := hfail 0 (Nat.zero_le _)
        rwa [Nat.add_zero] at this
      have hc0 : cancelled attempt = false := by
        have := hcan 0 (Nat.succ_pos j)
        rwa [Nat.add_zero] at this
      have hrec := ih (attempt + 1) r ⟨trace.attempts + 1, trace.sleeps ++ [(attempt + 1) * 100]⟩
        (by omega)
        (fun i hi => by
          have := hfail (i + 1) (by omega)
          rwa [show attempt + (i + 1) = attempt + 1 + i by omega] at this)
        (fun i hi => by
          have := hcan (i + 1) (by omega)
          rwa [show attempt + (i + 1) = attempt + 1 + i by omega] at this)
        (by rwa [show attempt + 1 + j = attempt + (j + 1) by omega])
      cases hu : upstream attempt with
      | resp rr =>
        rw [hu] at hf0
        simp only [retryableOutcome] at hf0
        simp only [proxyLoop, hu, hf0, hc0, Bool.false_eq_true, reduceIte, hrec]
        refine congrArg _ ?_
        refine congrArg₂ _ (by omega) ?_
        rw [List.append_assoc, List.singleton_append, backoff_cons]
      | netErr m =>
        simp only [proxyLoop, hu, hc0, Bool.false_eq_true, reduceIte, hrec]
        refine congrArg _ ?_
        refine congrArg₂ _ (by omega) ?_
        rw [List.append_assoc, List.singleton_append, backoff_cons]

/-! ## Claim theorems: retry loop -/

/-- C1: for a service configured with `maxRetries = R` and an upstream that
answers 503 on each of the first `N - 1` attempts and 200 on attempt `N`
(`1 ≤ N ≤ R + 1`), `proxyWithRetries` returns the 200 response after
exactly `N` attempts and performs exactly `N - 1` completed backoff
sleeps, the i-th (1-based) lasting `i * 100` ms; in particular no sleep
follows the final attempt. -/
theorem retries_503_then_200 (retries n : Nat) (upstream : Nat → AttemptOutcome)
    (okResp : UpstreamResponse) (hn : 1 ≤ n) (hle : n ≤ retries + 1)
    (h503 : ∀ i, i + 1 < n → ∃ rr, upstream i = .resp rr ∧ rr.statusCode = 503)
    (hok : upstream (n - 1) = .resp okResp) (h200 : okResp.statusCode = 200) :
    proxyWithRetries retries upstream (fun _ => false) =
      (.success okResp, ⟨n, (List.range (n - 1)).map (fun i => (i + 1) * 100)⟩) := by
  have h := proxyLoop_success upstream (fun _ => false) okResp (n - 1) 0 retries ⟨0, []⟩
    (by omega)
    (fun i hi => by
      obtain ⟨rr, hu, hs⟩ := h503 i (by omega)
      rw [Nat.zero_add, hu]
      simp only [retryableOutcome]
      rw [hs]
      decide)
    (fun i _ => rfl)
    (by rwa [Nat.zero_add])
    (by rw [h200]; decide)
  rw [proxyWithRetries, h]
  refine congrArg _ ?_
  refine congrArg₂ _ (by show 0 + (n - 1) + 1 = n; omega) ?_
  simp

/-- Witness upstream for C1: 503 on attempts 0 and 1, 200 on attempt 2. -/
def upstreamW1 : Nat → AttemptOutcome :=
  fun i => if i + 1 < 3 then .resp ⟨503, [], []⟩ else .resp ⟨200, [], []⟩

theorem retries_503_then_200_witness :
    proxyWithRetries 3 upstreamW1 (fun _ => false) =
      (.success ⟨200, [], []⟩, ⟨3, [100, 200]⟩) := by
  have h := retries_503_then_200 3 3 upstreamW1 ⟨200, [], []⟩
    (by decide) (by decide)
    (fun i hi => ⟨⟨503, [], []⟩, by simp [upstreamW1, hi], rfl⟩)
    (by decide) rfl
  rw [h]
  decide

/-- C2: `shouldRetry` holds exactly for statuses ≥ 500 other than 501, and
an upstream answering 501 on the first attempt makes the proxy return that
response unchanged after exactly one attempt and no backoff sleep. -/
theorem shouldRetry_iff_and_501_single_attempt :
    (∀ s : Int, shouldRetry s = true ↔ (500 ≤ s ∧ s ≠ 501)) ∧
    (∀ (retries : Nat) (upstream : Nat → AttemptOutcome) (cancelled : Nat → Bool)
        (r : UpstreamResponse), upstream 0 = .resp r → r.statusCode = 501 →
      proxyWithRetries retries upstream cancelled = (.success r, ⟨1, []⟩)) := by
  constructor
  · intro s
    simp [shouldRetry]
  · intro retries upstream cancelled r h0 h501
    have hs : shouldRetry r.statusCode = false := by rw [h501]; decide
    cases retries with
    | zero => simp [proxyWithRetries, proxyLoop, h0, hs]
    | succ k => simp [proxyWithRetries, proxyLoop, h0, hs]

theorem shouldRetry_iff_and_501_single_attempt_witness :
    shouldRetry 502 = true ∧
    proxyWithRetries 5 (fun _ => .resp ⟨501, [], []⟩) (fun _ => false) =
      (.success ⟨501, [], []⟩, ⟨1, []⟩) :=
  ⟨(shouldRetry_iff_and_501_single_attempt.1 502).mpr (by decide),
   shouldRetry_iff_and_501_single_attempt.2 5 _ _ ⟨501, [], []⟩ rfl rfl⟩

/-- C4: if the parent context is cancelled during the backoff sleep that
follows attempt `a` (all attempts so far having been retryable failures),
`proxyWithRetries` returns the context's cancellation as the final result
with no further attempt started: exactly `a + 1` attempts and only the `a`
already-completed sleeps. -/
theorem cancel_during_backoff (retries : Nat) (upstream : Nat → AttemptOutcome)
    (cancelled : Nat → Bool) (a : Nat) (ha : a < retries)
    (hfail : ∀ i, i ≤ a → retryableOutcome (upstream i))
    (hbefore : ∀ i, i < a → cancelled i = false) (hcancel : cancelled a = true) :
    proxyWithRetries retries upstream cancelled =
      (.ctxCancelled, ⟨a + 1, (List.range a).map (fun i => (i + 1) * 100)⟩) := by
  have h := proxyLoop_cancel upstream cancelled a 0 retries ⟨0, []⟩ ha
    (fun i hi => by rw [Nat.zero_add]; exact hfail i hi)
    (fun i hi => by rw [Nat.zero_add]; exact hbefore i hi)
    (by rwa [Nat.zero_add])
  rw [proxyWithRetries, h]
  refine congrArg _ ?_
  refine congrArg₂ _ (by show 0 + a + 1 = a + 1; omega) ?_
  simp

theorem cancel_during_backoff_witness :
    proxyWithRetries 3 (fun _ => .resp ⟨503, [], []⟩) (fun i => i = 1) =
      (.ctxCancelled, ⟨2, [100]⟩) := by
  have h := cancel_during_backoff 3 (fun _ => .resp ⟨503, [], []⟩) (fun i => i = 1) 1
    (by decide)
    (fun i _ => by simp only [retryableOutcome]; decide)
    (fun i hi => by simp; omega)
    (by simp)
  rw [h]
  decide

/-! ## Claim theorem: body preservation -/

/-- C3: for a request whose body stream is unread, `createProxyRequest`
hands the upstream request a body whose full read yields exactly the
inbound bytes, and leaves the original request with a fresh body whose
full read yields the same bytes again. -/
theorem proxy_body_preserved (orig : HttpRequest) (target : String) (bs : List Nat)
    (hb : orig.body = some (freshReader bs)) (_hne : bs ≠ []) :
    ((createProxyRequest orig target).1.body.map (fun rb => (readAll rb).1) = some bs) ∧
    ((createProxyRequest orig target).2.body.map (fun rb => (readAll rb).1) = some bs) := by
  simp [createProxyRequest, hb, readAll, freshReader]

/-- Witness request for C3. -/
def reqW3 : HttpRequest :=
  ⟨"POST", "/urls", [("Content-Type", ["application/json"])],
   some (freshReader [104, 105]), "1.2.3.4:9000", "example.com", false⟩

theorem proxy_body_preserved_witness :
    ((createProxyRequest reqW3 "http://url-service/urls").1.body.map
        (fun rb => (readAll rb).1) = some [104, 105]) ∧
    ((createProxyRequest reqW3 "http://url-service/urls").2.body.map
        (fun rb => (readAll rb).1) = some [104, 105]) :=
  proxy_body_preserved reqW3 "http://url-service/urls" [104, 105] rfl (by decide)

/-! ## Header-hygiene lemmas -/

theorem isHopByHopHeader_iff (name : String) :
    isHopByHopHeader name = true ↔
      ∃ h ∈ hopByHopHeaders, goToLower h = goToLower name := by
  simp [isHopByHopHeader, List.any_eq_true]

theorem mem_copyHeaders (name : String) (vs : List String) (hs : Header) :
    (name, vs) ∈ copyHeaders hs ↔
      (name, vs) ∈ hs ∧ isHopByHopHeader name = false := by
  simp [copyHeaders, List.mem_filter]

theorem mem_headerSet (name n v : String) (vs : List String) (hs : Header) :
    (name, vs) ∈ headerSet hs n v ↔
      ((name, vs) ∈ hs ∧ name ≠ n) ∨ (name = n ∧ vs = [v]) := by
  simp [headerSet, List.mem_filter, List.mem_append]

theorem createProxyRequest_headers (orig : HttpRequest) (target : String) :
    (createProxyRequest orig target).1.headers = proxyHeaders orig := by
  cases h : orig.body <;> simp [createProxyRequest, h]

/-! ## Claim theorem: hop-by-hop headers -/

/-- C5: a header whose name is case-insensitively one of the eight
hop-by-hop names is never carried by the upstream request built by
`createProxyRequest`, nor copied to the client by `copyResponse`; a header
with any other name is copied with all its values in both directions (on
the request side, up to the four forwarding headers the proxy sets
afterwards, whose names are not hop-by-hop). -/
theorem hop_by_hop_never_copied (name : String) (vs : List String)
    (orig : HttpRequest) (target : String) (resp : UpstreamResponse) :
    ((∃ h ∈ hopByHopHeaders, goToLower h = goToLower name) →
      ((name, vs) ∉ (createProxyRequest orig target).1.headers ∧
       (name, vs) ∉ (copyResponse resp).headers)) ∧
    ((∀ h ∈ hopByHopHeaders, goToLower h ≠ goToLower name) →
      (((name, vs) ∈ copyHeaders orig.headers ↔ (name, vs) ∈ orig.headers) ∧
       ((name, vs) ∈ (copyResponse resp).headers ↔ (name, vs) ∈ resp.headers))) := by
  constructor
  · intro hHop
    have hhop : isHopByHopHeader name = true := (isHopByHopHeader_iff name).mpr hHop
    have hxff : name ≠ "X-Forwarded-For" := by
      rintro rfl; exact absurd hHop (by decide)
    have hxfp : name ≠ "X-Forwarded-Proto" := by
      rintro rfl; exact absurd hHop (by decide)
    have hxfh : name ≠ "X-Forwarded-Host" := by
      rintro rfl; exact absurd hHop (by decide)
    have hxg : name ≠ "X-Gateway" := by
      rintro rfl; exact absurd hHop (by decide)
    constructor
    · rw [createProxyRequest_headers]
      simp [proxyHeaders, mem_headerSet, mem_copyHeaders, hxff, hxfp, hxfh, hxg, hhop]
    · simp [copyResponse, mem_copyHeaders, hhop]
  · intro hNot
    have hhop : isHopByHopHeader name = false := by
      rw [← Bool.not_eq_true, isHopByHopHeader_iff]
      push_neg
      exact hNot
    constructor
    · simp [mem_copyHeaders, hhop]
    · simp [copyResponse, mem_copyHeaders, hhop]

/-- Witness request and response for C5. -/
def reqW5 : HttpRequest :=
  ⟨"GET", "/urls", [("connection", ["keep-alive"]), ("Accept", ["*/*"])],
   none, "1.2.3.4:9000", "example.com", false⟩

def respW5 : UpstreamResponse :=
  ⟨200, [("connection", ["keep-alive"]), ("Content-Type", ["application/json"])], [111]⟩

theorem hop_by_hop_never_copied_witness :
    ("connection", ["keep-alive"]) ∉ (createProxyRequest reqW5 "http://u/urls").1.headers ∧
    ("connection", ["keep-alive"]) ∉ (copyResponse respW5).headers :=
  (hop_by_hop_never_copied "connection" ["keep-alive"] reqW5 "http://u/urls" respW5).1
    (by decide)

/-! ## Substring lemmas for the error classifier -/

theorem string_data_append (s t : String) : (s ++ t).data = s.data ++ t.data := rfl

theorem containsSub_nil (t : List Char) : containsSub [] t = true := by
  cases t <;> simp [containsSub, List.isPrefixOf]

theorem isPrefixOf_append_right (l m t : List Char) (h : l.isPrefixOf m = true) :
    l.isPrefixOf (m ++ t) = true := by
  rw [List.isPrefixOf_iff_prefix] at h ⊢
  exact h.trans (List.prefix_append m t)

theorem containsSub_append_left (nd h : List Char) (hc : containsSub nd h = true)
    (t : List Char) : containsSub nd (h ++ t) = true := by
  induction h with
  | nil =>
    simp only [containsSub] at hc
    rw [List.isEmpty_iff] at hc
    subst hc
    simpa using containsSub_nil t
  | cons c h' ih =>
    simp only [containsSub, Bool.or_eq_true] at hc
    rcases hc with hpre | hrec
    · have := isPrefixOf_append_right nd (c :: h') t hpre
      simp only [List.cons_append] at this ⊢
      simp [containsSub, this]
    · simp only [List.cons_append]
      simp [containsSub, ih hrec]

/-! ## Claim theorem: routing failure and error classification -/

/-- C6: a request whose path matches no route prefix makes `proxyRequest`
fail before any upstream attempt (trace shows 0 attempts) with an error
the handler classifies as 404/ROUTE_NOT_FOUND with the JSON error body;
and every proxy error is classified into exactly one of the four
(status, message, code) triples, the response carrying the corresponding
JSON body. -/
theorem route_not_found_and_classification (cfg : ServicesConfig) (r : HttpRequest)
    (upstream : Nat → AttemptOutcome) (cancelled : Nat → Bool) (errStr : String) :
    ((goHasPrefix r.path "/auth/" = false) → (goHasPrefix r.path "/me" = false) →
     (goHasPrefix r.path "/urls" = false) → (goHasPrefix r.path "/notifications" = false) →
      proxyRequest cfg r upstream cancelled =
        (.error ("failed to determine target: " ++ ("no route found for path: " ++ r.path)),
         ⟨0, []⟩) ∧
      handleProxyError
          ("failed to determine target: " ++ ("no route found for path: " ++ r.path)) =
        ⟨404,
         [("Access-Control-Allow-Origin", "*"),
          ("Access-Control-Allow-Methods", "GET, POST, PUT, DELETE, OPTIONS"),
          ("Access-Control-Allow-Headers", "Authorization, Content-Type"),
          ("Content-Type", "application/json")],
         jsonProxyError "Endpoint not found" "ROUTE_NOT_FOUND"⟩) ∧
    (classifyProxyError errStr ∈
      [(404, "Endpoint not found", "ROUTE_NOT_FOUND"),
       (504, "Request timeout", "TIMEOUT_ERROR"),
       (502, "Upstream service unavailable", "SERVICE_UNAVAILABLE"),
       (500, "Internal server error", "PROXY_ERROR")] ∧
     handleProxyError errStr =
       ⟨(classifyProxyError errStr).1,
        [("Access-Control-Allow-Origin", "*"),
         ("Access-Control-Allow-Methods", "GET, POST, PUT, DELETE, OPTIONS"),
         ("Access-Control-Allow-Headers", "Authorization, Content-Type"),
         ("Content-Type", "application/json")],
        jsonProxyError (classifyProxyError errStr).2.1 (classifyProxyError errStr).2.2⟩) := by
  constructor
  · intro h1 h2 h3 h4
    constructor
    · simp [proxyRequest, determineTarget, h1, h2, h3, h4]
    · have hcont : strContains
          ("failed to determine target: " ++ ("no route found for path: " ++ r.path))
          "no route found" = true := by
        unfold strContains
        rw [string_data_append, string_data_append, ← List.append_assoc]
        exact containsSub_append_left _ _ (by decide) _
      simp [handleProxyError, classifyProxyError, hcont]
  · constructor
    · unfold classifyProxyError
      split
      · simp
      · split
        · simp
        · split <;> simp
    · rfl

/-- Witness configuration and request for C6. -/
def cfgW6 : ServicesConfig :=
  ⟨⟨"http://auth-service:8080", 5000, 3⟩, ⟨"http://url-service:8080", 5000, 3⟩,
   ⟨"http://notification-service:8080", 5000, 3⟩⟩

def reqW6 : HttpRequest := ⟨"GET", "/zzz", [], none, "1.2.3.4:9000", "example.com", false⟩

theorem route_not_found_and_classification_witness :
    proxyRequest cfgW6 reqW6 (fun _ => .resp ⟨200, [], []⟩) (fun _ => false) =
      (.error ("failed to determine target: " ++ ("no route found for path: " ++ "/zzz")),
       ⟨0, []⟩) ∧
    handleProxyError
        ("failed to determine target: " ++ ("no route found for path: " ++ "/zzz")) =
      ⟨404,
       [("Access-Control-Allow-Origin", "*"),
        ("Access-Control-Allow-Methods", "GET, POST, PUT, DELETE, OPTIONS"),
        ("Access-Control-Allow-Headers", "Authorization, Content-Type"),
        ("Content-Type", "application/json")],
       jsonProxyError "Endpoint not found" "ROUTE_NOT_FOUND"⟩ :=
  (route_not_found_and_classification cfgW6 reqW6 (fun _ => .resp ⟨200, [], []⟩)
    (fun _ => false) "x").1 (by decide) (by decide) (by decide) (by decide)

/-! ## Rate-limit lemmas -/

theorem runRateLimited_eq (rps : Nat) (next : MWResponse) :
    ∀ (n tokens : Nat),
      runRateLimited rps next n tokens =
        (List.range n).map (fun i =>
          if i < tokens then (next, true) else (handleRateLimitExceeded rps 0, false)) := by
  intro n
  induction n with
  | zero => intro tokens; rfl
  | succ m ih =>
    intro tokens
    cases tokens with
    | zero =>
      rw [runRateLimited, List.range_succ_eq_map, List.map_cons, List.map_map]
      simp only [rateLimitStep, bucketAllow]
      norm_num
      simp [ih 0, Function.comp_def, List.map_const', List.length_range]
    | succ t =>
      rw [runRateLimited, List.range_succ_eq_map, List.map_cons, List.map_map]
      simp only [rateLimitStep, bucketAllow]
      have h1 : 1 ≤ t + 1 := by omega
      simp only [h1, if_true, Nat.add_sub_cancel]
      rw [ih t]
      refine congrArg₂ _ (by simp) ?_
      refine List.map_congr_left (fun i _ => ?_)
      simp only [Function.comp_apply, Nat.succ_lt_succ_iff]

/-! ## Claim theorem: rate limiting beyond the burst -/

/-- C7: from a full bucket of `burst` tokens that does not refill, the
first `burst` requests pass to the downstream handler and every request
beyond the burst-th is rejected without invoking it, with a 429 response
carrying the integer rate-limit headers (remaining = "0", non-negative),
the CORS headers, and the fixed JSON body. -/
theorem rate_limit_beyond_burst (rps burst n i : Nat) (next : MWResponse)
    (hn : burst < n) :
    ((i < burst → (runRateLimited rps next n burst)[i]? = some (next, true)) ∧
     (burst ≤ i → i < n →
       (runRateLimited rps next n burst)[i]? =
         some (handleRateLimitExceeded rps 0, false))) ∧
    (handleRateLimitExceeded rps 0).status = 429 ∧
    (handleRateLimitExceeded rps 0).headers =
      [("X-RateLimit-Limit", toString rps),
       ("X-RateLimit-Remaining", "0"),
       ("X-RateLimit-Reset", "60"),
       ("Retry-After", "60"),
       ("Access-Control-Allow-Origin", "*"),
       ("Access-Control-Allow-Methods", "GET, POST, PUT, DELETE, OPTIONS"),
       ("Access-Control-Allow-Headers", "Authorization, Content-Type"),
       ("Content-Type", "application/json")] ∧
    (handleRateLimitExceeded rps 0).body = jsonRateLimited := by
  refine ⟨⟨?_, ?_⟩, rfl, rfl, rfl⟩
  · intro hi
    rw [runRateLimited_eq, List.getElem?_map, List.getElem?_range (by omega)]
    simp [hi]
  · intro hbi hin
    rw [runRateLimited_eq, List.getElem?_map, List.getElem?_range hin]
    simp [Nat.not_lt_of_le hbi]

theorem rate_limit_beyond_burst_witness :
    (runRateLimited 10 ⟨200, [], "ok"⟩ 4 2)[3]? =
      some (handleRateLimitExceeded 10 0, false) ∧
    (handleRateLimitExceeded 10 0).status = 429 ∧
    (handleRateLimitExceeded 10 0).headers =
      [("X-RateLimit-Limit", "10"),
       ("X-RateLimit-Remaining", "0"),
       ("X-RateLimit-Reset", "60"),
       ("Retry-After", "60"),
       ("Access-Control-Allow-Origin", "*"),
       ("Access-Control-Allow-Methods", "GET, POST, PUT, DELETE, OPTIONS"),
       ("Access-Control-Allow-Headers", "Authorization, Content-Type"),
       ("Content-Type", "application/json")] ∧
    (handleRateLimitExceeded 10 0).body = jsonRateLimited := by
  have h := rate_limit_beyond_burst 10 2 4 3 ⟨200, [], "ok"⟩ (by decide)
  exact ⟨h.1.2 (by decide) (by decide), h.2.1, by rw [h.2.2.1]; rfl, h.2.2.2⟩

/-! ## String lemmas for the Authorization header -/

theorem stringExt {s t : String} (h : s.data = t.data) : s = t := by
  cases s; cases t; exact congrArg String.mk h

theorem stringEta (s : String) : (⟨s.data⟩ : String) = s := rfl

theorem splitFirstSpace_some (l a b : List Char) (h : splitFirstSpace l = some (a, b)) :
    l = a ++ ' ' :: b ∧ ' ' ∉ a := by
  induction l generalizing a b with
  | nil => simp [splitFirstSpace] at h
  | cons c cs ih =>
    by_cases hc : c = ' '
    · subst hc
      simp only [splitFirstSpace, if_pos rfl, Option.some.injEq, Prod.mk.injEq] at h
      obtain ⟨rfl, rfl⟩ := h
      simp
    · simp only [splitFirstSpace, if_neg hc] at h
      cases hs : splitFirstSpace cs with
      | none => rw [hs] at h; simp at h
      | some pr =>
        obtain ⟨a', b'⟩ := pr
        rw [hs] at h
        simp only [Option.some.injEq, Prod.mk.injEq] at h
        obtain ⟨rfl, rfl⟩ := h
        obtain ⟨hcs, hna⟩ := ih a' b' hs
        subst hcs
        refine ⟨rfl, ?_⟩
        intro hmem
        rcases List.mem_cons.mp hmem with hh | hh
        · exact hc hh.symm
        · exact hna hh

theorem splitFirstSpace_of_append (a b : List Char) (h : ' ' ∉ a) :
    splitFirstSpace (a ++ ' ' :: b) = some (a, b) := by
  induction a with
  | nil => simp [splitFirstSpace]
  | cons c a' ih =>
    have hc : ¬ c = ' ' := by
      intro hcc
      exact h (by rw [hcc]; exact List.mem_cons_self _ _)
    have ha' : ' ' ∉ a' := fun hm => h (List.mem_cons_of_mem c hm)
    rw [List.cons_append, splitFirstSpace, if_neg hc, ih ha']

theorem data_space_append (a b : String) :
    (a ++ " " ++ b).data = a.data ++ ' ' :: b.data := by
  rw [string_data_append, string_data_append]
  show a.data ++ [' '] ++ b.data = a.data ++ ' ' :: b.data
  simp

/-- The spec's accepted form of the Authorization header, stated in the
spec's own words: the scheme token `Bearer` (case-insensitive) followed by
a single space and a non-empty value. -/
def bearerFormSpec (authHeader : String) : Prop :=
  ∃ scheme value : String,
    authHeader = scheme ++ " " ++ value ∧ goToLower scheme = "bearer" ∧ value ≠ ""

/-! ## Claim theorem: Authorization header acceptance -/

/-- C8: on a non-public path, the Authorization header is accepted by
`ExtractTokenFromHeader` exactly when it has the spec's bearer form; any
other form makes the middleware answer immediately with the 401
missing-credential response (JSON body, CORS headers) without invoking the
downstream handler. -/
theorem bearer_extraction_and_401 (path : String) (hp : isPublicPath path = false)
    (authHeader : String) (validate : String → Except String Unit) (next : MWResponse) :
    ((∃ t, extractTokenFromHeader authHeader = .ok t) ↔ bearerFormSpec authHeader) ∧
    ((∀ t, extractTokenFromHeader authHeader ≠ .ok t) →
      authMiddleware validate path authHeader next = (handleAuthError .missing, false) ∧
      handleAuthError .missing =
        ⟨401,
         [("Content-Type", "application/json"),
          ("Access-Control-Allow-Origin", "*"),
          ("Access-Control-Allow-Methods", "GET, POST, PUT, DELETE, OPTIONS"),
          ("Access-Control-Allow-Headers", "Authorization, Content-Type")],
         "\x7b\"error\": \"Authorization header required\", \"code\": \"AUTHENTICATION_FAILED\"\x7d"⟩) := by
  constructor
  · constructor
    · rintro ⟨t, h⟩
      by_cases h0 : authHeader = ""
      · rw [extractTokenFromHeader, if_pos h0] at h
        simp at h
      cases hs : splitFirstSpace authHeader.data with
      | none =>
        rw [show extractTokenFromHeader authHeader =
          .error "invalid authorization header format" by
            rw [extractTokenFromHeader, if_neg h0, hs]] at h
        simp at h
      | some pr =>
        obtain ⟨p0, p1⟩ := pr
        have hred : extractTokenFromHeader authHeader =
            (if goToLower ⟨p0⟩ ≠ "bearer" then .error "unsupported authorization scheme"
             else if (⟨p1⟩ : String) = "" then .error "missing token in authorization header"
             else .ok ⟨p1⟩) := by
          rw [extractTokenFromHeader, if_neg h0, hs]
        rw [hred] at h
        by_cases hlow : goToLower ⟨p0⟩ = "bearer"
        · by_cases hemp : (⟨p1⟩ : String) = ""
          · rw [if_neg (fun hne => hne hlow), if_pos hemp] at h
            simp at h
          · obtain ⟨hdata, _⟩ := splitFirstSpace_some authHeader.data p0 p1 hs
            refine ⟨⟨p0⟩, ⟨p1⟩, ?_, hlow, hemp⟩
            apply stringExt
            rw [data_space_append, hdata]
        · rw [if_pos hlow] at h
          simp at h
    · rintro ⟨scheme, value, rfl, hlow, hne⟩
      have hsp : ' ' ∉ scheme.data := by
        intro hmem
        have hmap : Char.toLower ' ' ∈ (goToLower scheme).data :=
          List.mem_map_of_mem Char.toLower hmem
        rw [hlow] at hmap
        exact absurd hmap (by decide)
      have hne0 : scheme ++ " " ++ value ≠ "" := by
        intro hcc
        have := congrArg String.data hcc
        rw [data_space_append] at this
        simp at this
      have hred : extractTokenFromHeader (scheme ++ " " ++ value) =
          (if goToLower ⟨scheme.data⟩ ≠ "bearer" then .error "unsupported authorization scheme"
           else if (⟨value.data⟩ : String) = "" then .error "missing token in authorization header"
           else .ok ⟨value.data⟩) := by
        rw [extractTokenFromHeader, if_neg hne0, data_space_append,
          splitFirstSpace_of_append scheme.data value.data hsp]
      refine ⟨value, ?_⟩
      rw [hred, if_neg (fun hcontra => hcontra hlow), if_neg hne]
  · intro hfail
    refine ⟨?_, rfl⟩
    cases hx : extractTokenFromHeader authHeader with
    | error e => simp [authMiddleware, hp, hx]
    | ok t => exact absurd hx (hfail t)

/-- Witness validator for C8. -/
def validateW : String → Except String Unit := fun _ => .ok ()

theorem bearer_extraction_and_401_witness :
    authMiddleware validateW "/urls" "Token abc" ⟨200, [], "ok"⟩ =
      (handleAuthError .missing, false) ∧
    handleAuthError .missing =
      ⟨401,
       [("Content-Type", "application/json"),
        ("Access-Control-Allow-Origin", "*"),
        ("Access-Control-Allow-Methods", "GET, POST, PUT, DELETE, OPTIONS"),
        ("Access-Control-Allow-Headers", "Authorization, Content-Type")],
       "\x7b\"error\": \"Authorization header required\", \"code\": \"AUTHENTICATION_FAILED\"\x7d"⟩ :=
  (bearer_extraction_and_401 "/urls" (by decide) "Token abc" validateW ⟨200, [], "ok"⟩).2
    (fun t h => by
      rw [show extractTokenFromHeader "Token abc" =
        .error "unsupported authorization scheme" from rfl] at h
      exact Except.noConfusion h)

/-! ## Comma-splitting lemmas for client-IP extraction -/

theorem data_comma_append (a b : String) :
    (a ++ "," ++ b).data = a.data ++ ',' :: b.data := by
  rw [string_data_append, string_data_append]
  show a.data ++ [','] ++ b.data = a.data ++ ',' :: b.data
  simp

theorem splitCommaAux_first (a : List Char) : ∀ (acc b : List Char), ',' ∉ a →
    splitCommaAux acc (a ++ ',' :: b) = (acc.reverse ++ a) :: splitCommaAux [] b := by
  induction a with
  | nil => intro acc b _; simp [splitCommaAux]
  | cons c a' ih =>
    intro acc b h
    have hc : ¬ c = ',' := fun hcc => h (by rw [hcc]; exact List.mem_cons_self _ _)
    have ha' : ',' ∉ a' := fun hm => h (List.mem_cons_of_mem c hm)
    rw [List.cons_append, splitCommaAux, if_neg hc, ih (c :: acc) b ha']
    simp

/-! ## Claim theorem: rate-limiter client identity -/

/-- C9: the rate limiter keys its bucket by the entire `X-Forwarded-For`
value verbatim, so any two requests whose values differ use distinct
buckets — unlike the proxy's `getClientIP`, which extracts only the
(trimmed) first comma-separated entry. -/
theorem rl_client_id_whole_xff (r : HttpRequest) (v : String)
    (hv : headerGet r.headers "X-Forwarded-For" = v) (hne : v ≠ "") :
    rlGetClientIP r = v ∧
    (∀ (r2 : HttpRequest) (v2 : String),
      headerGet r2.headers "X-Forwarded-For" = v2 → v2 ≠ "" → v ≠ v2 →
      rlGetClientIP r ≠ rlGetClientIP r2) ∧
    (∀ a b : String, ',' ∉ a.data → v = a ++ "," ++ b →
      getClientIP r = trimSpace a) := by
  refine ⟨?_, ?_, ?_⟩
  · simp [rlGetClientIP, hv, hne]
  · intro r2 v2 hv2 hne2 hne12
    rw [show rlGetClientIP r = v by simp [rlGetClientIP, hv, hne],
      show rlGetClientIP r2 = v2 by simp [rlGetClientIP, hv2, hne2]]
    exact hne12
  · intro a b hna hveq
    subst hveq
    simp only [getClientIP, hv]
    rw [if_pos (by exact hne)]
    rw [show splitComma (a ++ "," ++ b) =
        ⟨a.data⟩ :: (splitCommaAux [] b.data).map (fun l => ⟨l⟩) by
      unfold splitComma
      rw [data_comma_append, splitCommaAux_first a.data [] b.data hna]
      simp]
    rw [List.headD_cons, stringEta]

/-- Witness request for C9: a two-entry forwarded chain. -/
def reqW9 : HttpRequest :=
  ⟨"GET", "/urls", [("X-Forwarded-For", ["1.2.3.4, 5.6.7.8"])], none,
   "9.9.9.9:1234", "example.com", false⟩

def reqW9b : HttpRequest :=
  ⟨"GET", "/urls", [("X-Forwarded-For", ["1.2.3.4, 5.6.7.9"])], none,
   "9.9.9.9:1234", "example.com", false⟩

theorem rl_client_id_whole_xff_witness :
    rlGetClientIP reqW9 = "1.2.3.4, 5.6.7.8" ∧
    rlGetClientIP reqW9 ≠ rlGetClientIP reqW9b ∧
    getClientIP reqW9 = "1.2.3.4" := by
  have h := rl_client_id_whole_xff reqW9 "1.2.3.4, 5.6.7.8" rfl (by decide)
  refine ⟨h.1, h.2.1 reqW9b "1.2.3.4, 5.6.7.9" rfl (by decide) (by decide), ?_⟩
  rw [h.2.2 "1.2.3.4" " 5.6.7.8" (by decide) rfl]
  decide

/-! ## Claim theorem: CORS short-circuits OPTIONS before rate limit and auth -/

/-- C10: an `OPTIONS` request is answered by the CORS stage with 200 and
the fixed CORS headers; because CORS is installed before rate limiting and
auth, the pipeline state (limiter buckets and the record of stages run) is
returned untouched — the request is never rate-limited nor authenticated
and no later stage runs. -/
theorem cors_options_short_circuit (validate : String → Except String Unit)
    (rps burst : Nat) (terminal : GHandler) (r : HttpRequest) (st : PipelineState)
    (h : r.method = "OPTIONS") :
    gatewayChain validate rps burst terminal r st =
      ({ status := 200, headers := corsHeadersList, body := "" }, st) := by
  simp [gatewayChain, corsMiddleware, h]

/-- Witness validator, terminal handler and request for C10. -/
def validateW10 : String → Except String Unit := fun _ => .ok ()

def terminalW : GHandler := fun _ st => (⟨200, [], "proxied"⟩, st)

def reqW10 : HttpRequest :=
  ⟨"OPTIONS", "/urls", [("Origin", ["http://client"])], none,
   "1.2.3.4:9000", "example.com", false⟩

theorem cors_options_short_circuit_witness :
    gatewayChain validateW10 10 5 terminalW reqW10 ⟨[], []⟩ =
      ({ status := 200, headers := corsHeadersList, body := "" }, ⟨[], []⟩) :=
  cors_options_short_circuit validateW10 10 5 terminalW reqW10 ⟨[], []⟩ rfl

end HCaaS
